import Mathlib

/-!
Shallow embedding of the `log` package (a Go in-process logging library)
for checking its natural-language specification.

The embedding follows the current generation of the sources: the registry,
levels, `SetLevel`, `Init`, `Logger.Write` from the main package file, the
formatters from `format.go`, and the devices from `device.go`.

Conventions of the embedding:
- Go `int` values (levels, writer indices) are Lean `Int`; unsigned 32-bit
  date/time buckets are `Nat` (their values stay far below 2^32).
- Side effects are made explicit: device writes become event lists, the
  process-wide registry becomes an explicit `State` value threaded through
  the operations, `os.Exit` becomes an `Except` error code, and a Go runtime
  panic (out-of-range slice index, calling a nil map entry) becomes `none`
  or a dedicated `crash` constructor.
- `fmt.Printf` error reporting becomes a `Bool` flag or a report event.
-/

namespace GoLog

/-- Severity rank DEBUG (iota 0 in the source const block). -/
def DEBUG : Int := 0

/-- Severity rank INFO (iota 1). -/
def INFO : Int := 1

/-- Severity rank WARN (iota 2). -/
def WARN : Int := 2

/-- Severity rank ERROR (iota 3). -/
def ERROR : Int := 3

/-- Severity rank DISABLE (iota 4). -/
def DISABLE : Int := 4

/-- Severity rank FATAL (iota 5). Note: FATAL is ordered above DISABLE. -/
def FATAL : Int := 5

/-- Modelled from the spec: the constant `CRITICAL` is referenced by
`getLevelStr` in `format.go` but is not declared anywhere under the sources;
the spec's severity enumeration {DEBUG < INFO < WARN < ERROR < DISABLE <
FATAL} has no such level, so it is modelled as a rank distinct from every
declared level. -/
def CRITICAL : Int := 6

/-- Modelled from the spec: the constant `DayRorate` used by
`FileDevice.Write` is not declared under the sources; the default
(zero-valued) `rorate` field of a `file` device must select daily rotation,
so `DayRorate` is 0. -/
def DayRorate : Int := 0

/-- Modelled from the spec: the constant `HourRorate` used by
`createFileHourDevice` and `FileDevice.Write` is not declared under the
sources; it only needs to be distinct from `DayRorate`. -/
def HourRorate : Int := 1

/-- ASCII lower-casing of one character (the configuration strings the
library lowercases are ASCII). -/
def lowerChar (c : Char) : Char :=
  if ('A') ≤ c ∧ c ≤ ('Z') then Char.ofNat (c.toNat + 32) else c

/-- `strings.ToLower` as used on names, writer descriptors and level
strings. -/
def goToLower (s : String) : String :=
  String.mk (s.data.map lowerChar)

/-- Split a character list at the first occurrence of `sep`:
`some (before, after)`, or `none` when `sep` does not occur. -/
def splitOnce (sep : Char) : List Char → Option (List Char × List Char)
  | [] => none
  | c :: cs =>
    if c = sep then some ([], cs)
    else
      match splitOnce sep cs with
      | none => none
      | some (p, q) => some (c :: p, q)

/-- Core of `strings.SplitN` for a single-character separator: at most `n`
pieces, the last piece holding the unsplit remainder. -/
def splitNAux (sep : Char) : Nat → List Char → List (List Char)
  | 0, _ => []
  | 1, cs => [cs]
  | Nat.succ (Nat.succ m), cs =>
    match splitOnce sep cs with
    | none => [cs]
    | some (p, q) => p :: splitNAux sep (Nat.succ m) q

/-- `strings.SplitN(s, sep, n)` for a single-character separator. -/
def goSplitN (s : String) (sep : Char) (n : Nat) : List String :=
  (splitNAux sep n s.data).map (fun cs => String.mk cs)

/-- Strip leading spaces from a character list. -/
def trimLead : List Char → List Char
  | [] => []
  | c :: cs => if c = (' ') then trimLead cs else c :: cs

/-- `strings.Trim(s, " ")`: strip leading and trailing spaces. -/
def goTrimSpace (s : String) : String :=
  String.mk ((trimLead ((trimLead s.data).reverse)).reverse)

/-- Decimal digit characters of `n`, most significant first, in front of
`acc`; `fuel` bounds the recursion (any `fuel > n` is enough). Mirrors the
decimal rendering `fmt` and `strconv` perform. -/
def uitoaCore : Nat → Nat → List Char → List Char
  | 0, _, acc => acc
  | Nat.succ fuel, n, acc =>
    let d := Char.ofNat (48 + n % 10)
    if n < 10 then d :: acc else uitoaCore fuel (n / 10) (d :: acc)

/-- Decimal rendering of a nonnegative integer, as `fmt.Sprintf("%v", n)`
prints a `uint32`. -/
def uitoa (n : Nat) : String :=
  String.mk (uitoaCore (n + 1) n [])

/-- `strconv.FormatInt(i, 10)`. -/
def intToString : Int → String
  | Int.ofNat n => uitoa n
  | Int.negSucc n => ("-") ++ uitoa (n + 1)

/-- `fmt.Sprintf("%0wd", n)`: decimal rendering left-padded with zeros to
width `w` (numbers wider than `w` are printed in full). -/
def padZeros (w : Nat) (n : Nat) : String :=
  String.mk (List.replicate (w - (uitoa n).length) ('0')) ++ uitoa n

/-- The cached "date time" prefix written by `updateNow`:
`fmt.Sprintf("%04d %06d", dt%10000, tm)` where `dt` is the cached date
bucket `year%100*10000 + month*100 + day` and `tm` is
`hour*10000 + minute*100 + second`. -/
def lastDateTimeStr (dt tm : Nat) : String :=
  padZeros 4 (dt % 10000) ++ (" ") ++ padZeros 6 tm

/-- `getLevelStr` from `format.go`: the one-letter level code, plus a flag
recording whether the `fmt.Printf` unknown-level report fired (the default
branch, which also coerces the code to I). -/
def getLevelStr (level : Int) : Char × Bool :=
  if level = DEBUG then (('D'), false)
  else if level = INFO then (('I'), false)
  else if level = WARN then (('W'), false)
  else if level = ERROR then (('E'), false)
  else if level = CRITICAL then (('C'), false)
  else if level = FATAL then (('F'), false)
  else (('I'), true)

/-- `getLevelFromStr`: parse a level string (case-insensitively), plus a
flag recording whether the unknown-level report fired (the default branch,
which also degrades the result to INFO). -/
def getLevelFromStr (level : String) : Int × Bool :=
  match goToLower level with
  | "d" => (DEBUG, false)
  | "i" => (INFO, false)
  | "w" => (WARN, false)
  | "e" => (ERROR, false)
  | "debug" => (DEBUG, false)
  | "info" => (INFO, false)
  | "warn" => (WARN, false)
  | "warning" => (WARN, false)
  | "err" => (ERROR, false)
  | "error" => (ERROR, false)
  | "disable" => (DISABLE, false)
  | _ => (INFO, true)

/-- The downward scan of `DefaultFormatter.Format` looking for the last
path separator: starting at index `i` and walking down to 0, return `j+1`
for the first index `j` holding a slash, and `-1` when none does (the Go
loop leaves `i = -1` in that case). -/
def scanSlash (cs : List Char) : Nat → Int
  | 0 => if cs.getD 0 (' ') = ('/') then 1 else -1
  | Nat.succ i =>
    if cs.getD (Nat.succ i) (' ') = ('/') then ((i : Int) + 2)
    else scanSlash cs i

/-- The `file[i:]` truncation of the caller's file to its last path
segment. The scan starts at `length - 2`; when the loop never runs or finds
no slash the Go code slices with a negative index and panics (`none`). -/
def shortFile (file : String) : Option String :=
  let cs := file.data
  if cs.length < 2 then none
  else
    match scanSlash cs (cs.length - 2) with
    | Int.ofNat i => some (String.mk (cs.drop i))
    | Int.negSucc _ => none

/-- `DefaultFormatter.Format` from `format.go`. The ambient inputs that Go
reads from globals and the runtime are parameters: the cached `dt`/`tm`
buckets and the `runtime.Caller(3)` result `(file, line, ok)`. The buffer
writes are modelled as string concatenation; `none` is the panic of the
negative-index slice in the short-file truncation. -/
def DefaultFormatter.Format (dt tm : Nat) (level : Int) (msg : String)
    (file : String) (line : Int) (ok : Bool) : Option String :=
  match (if ok then (shortFile file).map
      (fun sf => (" ") ++ sf ++ (":") ++ intToString line)
    else some ("")) with
  | none => none
  | some mid =>
    some (String.singleton (getLevelStr level).1 ++ lastDateTimeStr dt tm
      ++ mid ++ ("] ") ++ msg ++ ("\n"))

/-- `SimpleFormatter.Format`: the message followed by a newline. -/
def SimpleFormatter.Format (msg : String) : String :=
  msg ++ ("\n")

/-- The constructed device values. `fileDev` keeps the filename pre-part
(Go field `prefix`) and the `rorate` granularity; `nsqDev` keeps the
producer address and the `name` and `topic` fields exactly as
`createNsqDevice` assigns them. -/
inductive Device where
  | fileDev (pre : String) (rorate : Int)
  | consoleDev
  | stdoutDev
  | nsqDev (addr : String) (name : String) (topic : String)
deriving DecidableEq, Repr

/-- `createFileDevice`: a file device with the zero-valued `rorate`. -/
def createFileDevice (args : String) : Except Nat Device :=
  Except.ok (Device.fileDev args 0)

/-- `createFileHourDevice`: an hourly-rotating file device. -/
def createFileHourDevice (args : String) : Except Nat Device :=
  Except.ok (Device.fileDev args HourRorate)

/-- `createConsoleDevice`. -/
def createConsoleDevice (_ : String) : Except Nat Device :=
  Except.ok Device.consoleDev

/-- `createStdoutDevice`. -/
def createStdoutDevice (_ : String) : Except Nat Device :=
  Except.ok Device.stdoutDev

/-- `createNsqDevice`: split the descriptor into at most 4 colon-separated
fields; fewer than 4 fields or any field empty after trimming spaces is
`os.Exit(1)` (`Except.error 1`). The producer is dialled at
`items[0] ++ ":" ++ items[1]`; producer creation itself is external and
modelled as succeeding. Note the source assigns `name := items[1]` and
`topic := items[2]`. -/
def createNsqDevice (args : String) : Except Nat Device :=
  match goSplitN args (':') 4 with
  | [i0, i1, i2, i3] =>
    if goTrimSpace i0 = "" ∨ goTrimSpace i1 = "" ∨ goTrimSpace i2 = ""
        ∨ goTrimSpace i3 = "" then
      Except.error 1
    else
      Except.ok (Device.nsqDev (i0 ++ (":") ++ i1)
        (goTrimSpace i1) (goTrimSpace i2))
  | _ => Except.error 1

/-- The `deviceMap` registry literal from the main package file: exactly
the tags `file`, `stdout`, `console`, `nsq`. -/
def deviceMap : List (String × (String → Except Nat Device)) :=
  [("file", createFileDevice), ("stdout", createStdoutDevice),
   ("console", createConsoleDevice), ("nsq", createNsqDevice)]

/-- Association-list lookup (the read of a Go map). -/
def lookupAssoc {α : Type} : List (String × α) → String → Option α
  | [], _ => none
  | (k, v) :: rest, name => if k = name then some v else lookupAssoc rest name

/-- `NewDevice`: split the descriptor at the first colon into the tag and
the argument part, then call the registered constructor. A tag absent from
`deviceMap` makes Go call a nil function, a runtime panic (`none`); `some`
carries the constructor's outcome (`Except.error` is `os.Exit`). -/
def NewDevice (define : String) : Option (Except Nat Device) :=
  match goSplitN define (':') 2 with
  | [] => none
  | name :: rest =>
    let args := match rest with
      | [a] => a
      | _ => ""
    match lookupAssoc deviceMap name with
    | none => none
    | some ctor => some (ctor args)

/-- `NsqDevice.Write`: the published record is the device's `name` field, a
separator byte, then the record; it is published under the device's `topic`
field. Returns `((topic, payload), reported)` where `reported` records the
publish-failure report (`pubOk` is the external publish outcome). -/
def nsqWrite (name topic : String) (p : String) (pubOk : Bool) :
    (String × String) × Bool :=
  ((topic, name ++ ("|") ++ p), !pubOk)

/-- The mutable rotation state of a `FileDevice`: the filename of the
currently open file (`none` when `file == nil`) and the `lastdate` bucket. -/
structure FState where
  fileOpen : Option String
  lastdate : Nat
deriving DecidableEq, Repr

/-- The observable I/O of one `FileDevice.Write` call. -/
inductive FEvent where
  | flushEv (fname : String)
  | closeEv (fname : String) (ok : Bool)
  | reportCloseErr
  | openEv (fname : String) (ok : Bool)
  | reportOpenErr
  | writeEv (fname : String) (p : String) (ok : Bool)
  | reportWriteErr
deriving DecidableEq, Repr

/-- The path a `FileDevice` opens:
`fmt.Sprintf("%s/logs/%s-%v.log", dir, pre, date)` where `dir` is the
executable's parent directory (a parameter here). -/
def fileName (dir pre : String) (date : Nat) : String :=
  dir ++ ("/logs/") ++ pre ++ ("-") ++ uitoa date ++ (".log")

/-- `FileDevice.Write` from `device.go`. Ambient inputs are parameters: the
cached `lastDate`/`lastTime` buckets (`ldate`, `ltime`), the executable's
parent directory `dir`, and the outcomes of the three OS calls the body can
make (`openOk`, `closeOk`, `writeOk`). Returns the new rotation state and
the I/O trace. The rotation bucket is the date bucket for daily devices and
`date*100 + hour` for hourly ones; when the bucket moved, the open file is
flushed and closed (a close error is reported, not escalated) before a new
file is opened; an open failure is reported and the write dropped. -/
def FileDevice.Write (pre : String) (rorate : Int) (dir : String)
    (ldate ltime : Nat) (openOk closeOk writeOk : Bool)
    (st : FState) (p : String) : FState × List FEvent :=
  let date := if rorate = DayRorate then ldate
    else if rorate = HourRorate then ldate * 100 + ltime / 10000
    else ldate
  let closed :=
    if st.lastdate ≠ date then
      match st.fileOpen with
      | some f =>
        (FState.mk none st.lastdate,
         [FEvent.flushEv f, FEvent.closeEv f closeOk]
           ++ (if closeOk then [] else [FEvent.reportCloseErr]))
      | none => (st, [])
    else (st, [])
  match closed.1.fileOpen with
  | some f =>
    (closed.1, closed.2 ++ [FEvent.writeEv f p writeOk]
      ++ (if writeOk then [] else [FEvent.reportWriteErr]))
  | none =>
    let fname := fileName dir pre date
    if openOk then
      (FState.mk (some fname) date,
       closed.2 ++ [FEvent.openEv fname true, FEvent.writeEv fname p writeOk]
         ++ (if writeOk then [] else [FEvent.reportWriteErr]))
    else
      (closed.1, closed.2 ++ [FEvent.openEv fname false, FEvent.reportOpenErr])

/-- The two formatter implementations a `Logger` can hold. -/
inductive Fmt where
  | defaultFmt
  | simpleFmt
deriving DecidableEq, Repr

/-- The ambient inputs a formatting call reads: the cached clock buckets
and the `runtime.Caller` result. -/
structure Ambient where
  dt : Nat
  tm : Nat
  callerFile : String
  callerLine : Int
  callerOk : Bool
deriving DecidableEq, Repr

/-- Dispatch of `log.format.Format(level, msg)` over the two formatter
variants. -/
def applyFormat : Fmt → Ambient → Int → String → Option String
  | Fmt.defaultFmt, amb, level, msg =>
    DefaultFormatter.Format amb.dt amb.tm level msg
      amb.callerFile amb.callerLine amb.callerOk
  | Fmt.simpleFmt, _, _, msg => some (SimpleFormatter.Format msg)

/-- `Writer`: one minimum severity bound to one constructed device. -/
structure Writer where
  level : Int
  device : Device
deriving DecidableEq, Repr

/-- `Logger`: the cached aggregate minimum level, the formatter, and the
ordered writers. -/
structure Logger where
  minLevel : Int
  format : Fmt
  writers : List Writer
deriving DecidableEq, Repr

/-- `Logger.UpdateLevel`: recompute the cached minimum, starting from
DISABLE and lowering it at every writer whose level is smaller. -/
def Logger.UpdateLevel (log : Logger) : Logger :=
  { log with
    minLevel := log.writers.foldl
      (fun m w => if w.level < m then w.level else m) DISABLE }

/-- `NewLogger`: build the record (the Go struct literal leaves `minLevel`
at the zero value) and recompute the level. -/
def NewLogger (format : Fmt) (writers : List Writer) : Logger :=
  Logger.UpdateLevel (Logger.mk 0 format writers)

/-- `NewWriter(level, device)` builds the writer through `NewDevice`;
device construction can panic (unknown tag) or exit the process (bad nsq
descriptor), in which case the operation never completes (`none`). -/
def NewWriter (level : Int) (device : String) : Option Writer :=
  match NewDevice device with
  | some (Except.ok d) => some (Writer.mk level d)
  | _ => none

/-- `Logger.Write` from the main package file: reject fast when the level
is under the cached minimum, otherwise format once and hand the same bytes
to every writer whose own threshold is met, in order. The result is the
list of `(device, bytes)` write calls; `none` is a formatter panic. The
template rendering (`fmt.Sprintf` when arguments are given) is external, so
`msg` is the final message. -/
def Logger.Write (log : Logger) (amb : Ambient) (level : Int) (msg : String) :
    Option (List (Device × String)) :=
  if level < log.minLevel then some []
  else
    match applyFormat log.format amb level msg with
    | none => none
    | some b =>
      some (log.writers.foldl
        (fun evs w => if w.level ≤ level then evs ++ [(w.device, b)] else evs)
        [])

/-- `Logger.Flush` calls `Flush` on every writer's device, in order. -/
def Logger.Flush (log : Logger) : List Device :=
  log.writers.map (fun w => w.device)

/-- The process-wide registry: the designated default logger and the
name-to-logger map (an association list here). -/
structure State where
  defaultLogger : Logger
  loggerMap : List (String × Logger)
deriving DecidableEq, Repr

/-- Store under a key of a Go map: replace the existing entry, or append. -/
def mapSet : List (String × Logger) → String → Logger →
    List (String × Logger)
  | [], name, log => [(name, log)]
  | (k, v) :: rest, name, log =>
    if k = name then (k, log) :: rest else (k, v) :: mapSet rest name log

/-- The logger `SetLevel` operates on: the default logger for the name
`default`, otherwise the `loggerMap` entry. -/
def resolveLogger (s : State) (name : String) : Option Logger :=
  if name = "default" then some s.defaultLogger else lookupAssoc s.loggerMap name

/-- Write the resolved logger back: `default` is the default-logger
reference, anything else the map entry (Go mutates through the shared
pointer; no map entry ever aliases the default logger). -/
def storeLogger (s : State) (name : String) (log : Logger) : State :=
  if name = "default" then { s with defaultLogger := log }
  else { s with loggerMap := mapSet s.loggerMap name log }

/-- The two typed administrative errors. -/
inductive GoErr where
  | nameNotFound
  | indexOutOfBound
deriving DecidableEq, Repr

/-- Outcome of `SetLevel`: success with the new registry, a typed error
carrying the (unchanged) registry, or a Go runtime panic (`crash`). -/
inductive SetLevelResult where
  | ok (s : State)
  | err (e : GoErr) (s : State)
  | crash
deriving DecidableEq, Repr

/-- `SetLevel(name, index, level)` from the main package file. The name
`default` resolves to the default logger, other names through the map
(absent: `ErrNameNotFound`). `index >= len(writers)` is
`ErrIndexOutOfBound`. Index `-1` runs
`for _, writer := range log.writers { writer.level = newlevel }`: the loop
variable is a copy of each slice element, so the assignments mutate the
copies and the writer slice is left unchanged. Any other index updates
`writers[index]`; a negative index (hence any `index <= -2` here) is a Go
index-out-of-range panic. Both mutating paths end with `UpdateLevel`. -/
def SetLevel (s : State) (name : String) (index : Int) (level : String) :
    SetLevelResult :=
  match resolveLogger s name with
  | none => SetLevelResult.err GoErr.nameNotFound s
  | some log =>
    if (log.writers.length : Int) ≤ index then
      SetLevelResult.err GoErr.indexOutOfBound s
    else
      let newlevel := (getLevelFromStr level).1
      if index = -1 then
        SetLevelResult.ok (storeLogger s name (Logger.UpdateLevel log))
      else if index < 0 then SetLevelResult.crash
      else
        match log.writers.get? index.toNat with
        | none => SetLevelResult.crash
        | some w =>
          SetLevelResult.ok (storeLogger s name (Logger.UpdateLevel
            { log with writers :=
                log.writers.set index.toNat { w with level := newlevel } }))

/-- One configuration entry `{name, level, writer}`. -/
structure LoggerDefine where
  name : String
  level : String
  writer : String
deriving DecidableEq, Repr

/-- One iteration of the `Init` loop over the configuration, with the
`hasdefault` flag. The entry's name and writer descriptor are lowercased;
an existing logger of that name gains an appended writer and a recomputed
level, otherwise a fresh one-writer logger is built; a `default` entry
replaces the default logger (the first such entry ignores the built-in
default), others are stored in the map. `none` is a device construction
that panicked or exited. -/
def processEntry (s : State) (hasdefault : Bool) (e : LoggerDefine) :
    Option (State × Bool) :=
  let name := goToLower e.name
  let wstr := goToLower e.writer
  let found : Option Logger :=
    if name = "default" then
      (if hasdefault then some s.defaultLogger else none)
    else lookupAssoc s.loggerMap name
  match NewWriter (getLevelFromStr e.level).1 wstr with
  | none => none
  | some w =>
    let log := match found with
      | none => NewLogger Fmt.defaultFmt [w]
      | some l => Logger.UpdateLevel { l with writers := l.writers ++ [w] }
    if name = "default" then some ({ s with defaultLogger := log }, true)
    else some ({ s with loggerMap := mapSet s.loggerMap name log }, hasdefault)

/-- The configuration loop of `Init` (the background-worker handshake and
clock refresh around it are external effects). -/
def Init (s : State) (config : List LoggerDefine) : Option State :=
  (config.foldl
    (fun acc e => acc.bind (fun sh => processEntry sh.1 sh.2 e))
    (some (s, false))).map (fun sh => sh.1)

/-! ### Facts about the decimal rendering -/

/-- Decode a decimal digit string back to the number (left fold). -/
def decodeChars (cs : List Char) : Nat :=
  cs.foldl (fun a c => a * 10 + (c.toNat - 48)) 0

theorem uitoaCore_acc (f : Nat) : ∀ (n : Nat) (acc : List Char),
    uitoaCore f n acc = uitoaCore f n [] ++ acc := by
  induction f with
  | zero => intro n acc; simp [uitoaCore]
  | succ f ih =>
    intro n acc
    by_cases h : n < 10
    · simp [uitoaCore, h]
    · simp only [uitoaCore, if_neg h]
      rw [ih (n / 10) (Char.ofNat (48 + n % 10) :: acc),
        ih (n / 10) [Char.ofNat (48 + n % 10)]]
      simp

theorem char_digit_toNat {k : Nat} (h : k < 10) :
    (Char.ofNat (48 + k)).toNat = 48 + k := by
  interval_cases k <;> decide

theorem decodeChars_snoc (cs : List Char) (c : Char) :
    decodeChars (cs ++ [c]) = decodeChars cs * 10 + (c.toNat - 48) := by
  simp [decodeChars, List.foldl_append]

theorem decodeChars_uitoaCore (f : Nat) : ∀ n : Nat, n < f →
    decodeChars (uitoaCore f n []) = n := by
  induction f with
  | zero => intro n h; omega
  | succ f ih =>
    intro n h
    by_cases h10 : n < 10
    · simp only [uitoaCore, if_pos h10, decodeChars, List.foldl]
      rw [Nat.mod_eq_of_lt h10, char_digit_toNat h10]
      omega
    · have hdiv : n / 10 < f := by
        have h1 : n / 10 < n := Nat.div_lt_self (by omega) (by omega)
        omega
      simp only [uitoaCore, if_neg h10]
      rw [uitoaCore_acc, decodeChars_snoc, ih (n / 10) hdiv,
        char_digit_toNat (Nat.mod_lt n (by omega))]
      omega

theorem uitoa_injective {m n : Nat} (h : uitoa m = uitoa n) : m = n := by
  have hd : uitoaCore (m + 1) m [] = uitoaCore (n + 1) n [] := by
    have := congrArg String.data h
    simpa [uitoa] using this
  have := congrArg decodeChars hd
  rwa [decodeChars_uitoaCore (m + 1) m (by omega),
    decodeChars_uitoaCore (n + 1) n (by omega)] at this

theorem uitoaCore_length (f : Nat) : ∀ (n k : Nat), n < f → n < 10 ^ k →
    1 ≤ k → (uitoaCore f n []).length ≤ k := by
  induction f with
  | zero => intro n k h; omega
  | succ f ih =>
    intro n k hf hk h1
    by_cases h10 : n < 10
    · simp [uitoaCore, h10]; omega
    · have hk2 : 2 ≤ k := by
        by_contra hcon
        have : k = 1 := by omega
        subst this; simp at hk; omega
      have hdivf : n / 10 < f := by
        have : n / 10 < n := Nat.div_lt_self (by omega) (by omega)
        omega
      have hdivk : n / 10 < 10 ^ (k - 1) := by
        have hpow : 10 ^ k = 10 ^ (k - 1) * 10 := by
          rw [← pow_succ]; congr 1; omega
        rw [Nat.div_lt_iff_lt_mul (by omega)]
        omega
      simp only [uitoaCore, if_neg h10]
      rw [uitoaCore_acc]
      have := ih (n / 10) (k - 1) hdivf hdivk (by omega)
      rw [List.length_append]
      simp only [List.length_cons, List.length_nil]
      omega

theorem uitoa_length_le {n k : Nat} (hk : n < 10 ^ k) (h1 : 1 ≤ k) :
    (uitoa n).length ≤ k := by
  have : (uitoa n).length = (uitoaCore (n + 1) n []).length := rfl
  rw [this]
  exact uitoaCore_length (n + 1) n k (by omega) hk h1

theorem padZeros_length {w n : Nat} (h : (uitoa n).length ≤ w) :
    (padZeros w n).length = w := by
  have hmk : (String.mk (List.replicate (w - (uitoa n).length) ('0'))).length
      = w - (uitoa n).length := by
    show (List.replicate (w - (uitoa n).length) ('0')).length = _
    exact List.length_replicate _ _
  rw [padZeros, String.length_append, hmk]
  omega

theorem fileName_ne {dir pre : String} {d1 d2 : Nat} (h : d1 ≠ d2) :
    fileName dir pre d1 ≠ fileName dir pre d2 := by
  intro heq
  apply h
  apply uitoa_injective
  have hdata := congrArg String.data heq
  simp only [fileName, String.data_append, List.append_assoc] at hdata
  have h1 := List.append_cancel_left hdata
  have h2 := List.append_cancel_left h1
  have h3 := List.append_cancel_left h2
  have h4 := List.append_cancel_left h3
  have h5 := List.append_cancel_right h4
  cases hu1 : uitoa d1
  cases hu2 : uitoa d2
  rw [hu1, hu2] at h5
  simp_all

/-! ### Facts about the short-file truncation -/

theorem getD_append_slash (pre b : List Char) :
    (pre ++ ('/') :: b).getD pre.length (' ') = ('/') := by
  rw [List.getD_eq_getElem?_getD, List.getElem?_append_right (Nat.le_refl pre.length)]
  simp

theorem getD_append_after (pre b : List Char) (k : Nat) :
    (pre ++ ('/') :: b).getD (pre.length + (k + 1)) (' ') = b.getD k (' ') := by
  rw [List.getD_eq_getElem?_getD,
    List.getElem?_append_right (by omega : pre.length ≤ pre.length + (k + 1))]
  have h1 : pre.length + (k + 1) - pre.length = k + 1 := by omega
  rw [h1, List.getD_eq_getElem?_getD]
  simp

theorem scanSlash_eq (cs : List Char) (i : Nat) :
    scanSlash cs i = if cs.getD i (' ') = ('/') then ((i : Int) + 1)
      else if i = 0 then -1 else scanSlash cs (i - 1) := by
  cases i with
  | zero => simp [scanSlash]
  | succ j =>
    simp only [scanSlash]
    split
    · push_cast; ring_nf
    · simp

theorem scanSlash_spec (pre b : List Char) (hs : ∀ c ∈ b, c ≠ ('/')) :
    ∀ k : Nat, k < b.length →
    scanSlash (pre ++ ('/') :: b) (pre.length + k) = ((pre.length + 1 : Nat) : Int) := by
  intro k
  induction k with
  | zero =>
    intro _
    rw [Nat.add_zero, scanSlash_eq, if_pos (getD_append_slash pre b)]
    push_cast
    ring
  | succ k ih =>
    intro hk
    have hklt : k < b.length := by omega
    have hbk : b.getD k (' ') ≠ ('/') := by
      apply hs
      rw [List.getD_eq_getElem?_getD]
      rcases hge : b[k]? with _ | c
      · rw [List.getElem?_eq_none_iff] at hge; omega
      · exact List.getElem?_mem hge
    rw [scanSlash_eq, if_neg (by rw [getD_append_after pre b k]; exact hbk),
      if_neg (by omega)]
    have hsub : pre.length + (k + 1) - 1 = pre.length + k := by omega
    rw [hsub]
    exact ih hklt

theorem shortFile_append (d b : String) (hne : b.data ≠ [])
    (hs : ∀ c ∈ b.data, c ≠ ('/')) :
    shortFile (d ++ ("/") ++ b) = some b := by
  have hdata : (d ++ ("/") ++ b).data = d.data ++ ('/') :: b.data := by
    simp [String.data_append]
  have hblen : 1 ≤ b.data.length := List.length_pos.mpr hne
  have hlen : (d.data ++ ('/') :: b.data).length = d.data.length + 1 + b.data.length := by
    rw [List.length_append, List.length_cons]
    omega
  have hidx : (d.data ++ ('/') :: b.data).length - 2
      = d.data.length + (b.data.length - 1) := by omega
  have hscan : scanSlash (d.data ++ ('/') :: b.data)
      ((d.data ++ ('/') :: b.data).length - 2) = ((d.data.length + 1 : Nat) : Int) := by
    rw [hidx]
    exact scanSlash_spec d.data b.data hs (b.data.length - 1) (by omega)
  have hdrop : (d.data ++ ('/') :: b.data).drop (d.data.length + 1) = b.data := by
    have h1 : d.data ++ ('/') :: b.data = (d.data ++ [('/')]) ++ b.data := by simp
    have hl : d.data.length + 1 = (d.data ++ [('/')]).length := by
      rw [List.length_append]; rfl
    rw [h1, hl, List.drop_left]
  have hmk : String.mk b.data = b := by cases b; rfl
  simp only [shortFile, hdata]
  rw [if_neg (by omega), hscan]
  simp only [Int.ofNat_eq_coe]
  rw [hdrop, hmk]

/-! ### Facts about dispatch and the aggregate level -/

theorem foldl_fanout (level : Int) (b : String) :
    ∀ (ws : List Writer) (acc : List (Device × String)),
    ws.foldl (fun evs w => if w.level ≤ level then evs ++ [(w.device, b)] else evs) acc
      = acc ++ (ws.filter (fun w => decide (w.level ≤ level))).map
          (fun w => (w.device, b)) := by
  intro ws
  induction ws with
  | nil => intro acc; simp
  | cons w ws ih =>
    intro acc
    rw [List.filter_cons]
    by_cases h : w.level ≤ level
    · rw [if_pos (by simpa using h)]
      simp only [List.foldl, if_pos h, ih]
      simp
    · rw [if_neg (by simpa using h)]
      simp only [List.foldl, if_neg h, ih]

theorem foldr_min_swap (l : List Int) : ∀ a x : Int,
    l.foldr min (min a x) = min x (l.foldr min a) := by
  induction l with
  | nil => intro a x; simp [min_comm]
  | cons y l ih =>
    intro a x
    simp only [List.foldr, ih]
    rw [min_left_comm]

theorem foldl_min_eq_foldr_min : ∀ (l : List Int) (a : Int),
    l.foldl min a = l.foldr min a := by
  intro l
  induction l with
  | nil => intro a; rfl
  | cons x l ih =>
    intro a
    simp only [List.foldl, List.foldr, ih, foldr_min_swap]

/-- The value the spec calls the aggregate threshold, as the source
computes it: the minimum over DISABLE and all writer levels. -/
def aggregate (ws : List Writer) : Int :=
  (ws.map (fun w => w.level)).foldr min DISABLE

theorem updateLevel_aggregate (log : Logger) :
    (Logger.UpdateLevel log).minLevel = aggregate log.writers := by
  have hstep : (fun (m : Int) (w : Writer) => if w.level < m then w.level else m)
      = fun (m : Int) (w : Writer) => min m w.level := by
    funext m w
    rcases lt_or_ge w.level m with h | h
    · rw [if_pos h, min_eq_right (le_of_lt h)]
    · rw [if_neg (not_lt.mpr h), min_eq_left h]
  show log.writers.foldl (fun m w => if w.level < m then w.level else m) DISABLE = _
  rw [hstep, aggregate, ← foldl_min_eq_foldr_min, List.foldl_map]

theorem newLogger_aggregate (f : Fmt) (ws : List Writer) :
    (NewLogger f ws).minLevel = aggregate ws :=
  updateLevel_aggregate (Logger.mk 0 f ws)

theorem aggregate_le_of_mem {ws : List Writer} {w : Writer} (h : w ∈ ws) :
    aggregate ws ≤ w.level := by
  induction ws with
  | nil => cases h
  | cons x xs ih =>
    rcases List.mem_cons.mp h with h1 | h1
    · subst h1
      exact min_le_left _ _
    · exact le_trans (min_le_right _ _) (ih h1)

/-- The cached-level invariant of one logger. -/
def InvLogger (l : Logger) : Prop := l.minLevel = aggregate l.writers

/-- The cached-level invariant over the whole registry. -/
def InvState (s : State) : Prop :=
  InvLogger s.defaultLogger ∧ ∀ p ∈ s.loggerMap, InvLogger p.2

instance : DecidablePred InvLogger := fun l =>
  inferInstanceAs (Decidable (l.minLevel = aggregate l.writers))

instance : DecidablePred InvState := fun s =>
  inferInstanceAs
    (Decidable (InvLogger s.defaultLogger ∧ ∀ p ∈ s.loggerMap, InvLogger p.2))

theorem mem_mapSet {m : List (String × Logger)} {name : String} {log : Logger}
    {p : String × Logger} (h : p ∈ mapSet m name log) :
    p.2 = log ∨ p ∈ m := by
  induction m with
  | nil =>
    simp only [mapSet, List.mem_singleton] at h
    left
    rw [h]
  | cons kv rest ih =>
    simp only [mapSet] at h
    split at h
    · rcases List.mem_cons.mp h with h1 | h1
      · left; rw [h1]
      · right; exact List.mem_cons_of_mem _ h1
    · rcases List.mem_cons.mp h with h1 | h1
      · right; rw [h1]; exact List.mem_cons_self _ _
      · rcases ih h1 with h2 | h2
        · left; exact h2
        · right; exact List.mem_cons_of_mem _ h2

theorem storeLogger_inv {s : State} {name : String} {log : Logger}
    (hlog : InvLogger log) (hs : InvState s) : InvState (storeLogger s name log) := by
  rw [storeLogger]
  split
  · exact ⟨hlog, hs.2⟩
  · refine ⟨hs.1, ?_⟩
    intro p hp
    rcases mem_mapSet hp with h | h
    · rw [h]; exact hlog
    · exact hs.2 p h

/-! ### Shared concrete fixtures -/

/-- A concrete ambient snapshot: date bucket 141001 (2014-10-01), time
bucket 200102 (20:01:02), caller `/tmp/a.go:9`. -/
def amb0 : Ambient := Ambient.mk 141001 200102 ("/tmp/a.go") 9 true

/-- A one-writer console logger at DEBUG, as built-in `default` is. -/
def sampleLogger : Logger := NewLogger Fmt.defaultFmt [Writer.mk DEBUG Device.consoleDev]

/-- A registry holding `sampleLogger` as the default and under the name
`x`. -/
def sampleState : State := State.mk sampleLogger [(("x"), sampleLogger)]

/-! ### Claims -/

/-- C1, counterexample: a logger whose only writer has threshold DISABLE
still performs a device write for a FATAL-level call, because FATAL (rank
5) is ordered above DISABLE (rank 4); the claim that every level DEBUG
through FATAL inclusive produces zero device writes is false. -/
theorem claim1_counterexample :
    Logger.Write (NewLogger Fmt.defaultFmt [Writer.mk DISABLE Device.consoleDev])
        amb0 FATAL ("boom")
      = some [(Device.consoleDev, ("F1001 200102 a.go:9] boom\n"))]
    ∧ Logger.Write (NewLogger Fmt.defaultFmt [Writer.mk DISABLE Device.consoleDev])
        amb0 FATAL ("boom") ≠ some [] := by
  decide

/-- C1, amended: for every logger whose writers all have threshold DISABLE
(and whose cached aggregate is DISABLE), every log call at the levels DEBUG
through ERROR produces zero device writes; a FATAL call is still dispatched
to every writer, since FATAL is ordered above DISABLE. -/
theorem claim1_amended (log : Logger) (amb : Ambient) (msg : String)
    (hw : ∀ w ∈ log.writers, w.level = DISABLE)
    (hmin : log.minLevel = DISABLE) :
    (∀ level : Int, DEBUG ≤ level → level ≤ ERROR →
      Logger.Write log amb level msg = some [])
    ∧ (∀ b : String, applyFormat log.format amb FATAL msg = some b →
      Logger.Write log amb FATAL msg
        = some (log.writers.map (fun w => (w.device, b)))) := by
  constructor
  · intro level _ h3
    have hlt : level < log.minLevel := by
      rw [hmin]
      simp only [ERROR] at h3
      simp only [DISABLE]
      omega
    simp only [Logger.Write, if_pos hlt]
  · intro b hb
    have hnlt : ¬ FATAL < log.minLevel := by rw [hmin]; decide
    simp only [Logger.Write, if_neg hnlt, hb]
    have hfilter : log.writers.filter (fun w => decide (w.level ≤ FATAL))
        = log.writers := by
      rw [List.filter_eq_self]
      intro w hwmem
      rw [hw w hwmem]
      decide
    rw [foldl_fanout, hfilter]
    simp

/-- C1, witness: the amended claim at a concrete one-writer DISABLE logger
and a DEBUG-level call. -/
theorem claim1_witness :
    Logger.Write (NewLogger Fmt.defaultFmt [Writer.mk DISABLE Device.consoleDev])
      amb0 DEBUG ("m") = some [] :=
  (claim1_amended (NewLogger Fmt.defaultFmt [Writer.mk DISABLE Device.consoleDev])
      amb0 ("m") (by decide) (by decide)).1 DEBUG (by decide) (by decide)

/-- C2: `SetLevel` with index ALL (-1) does not set any writer's
threshold. The range loop assigns to the per-iteration copy of each slice
element, so the registry comes back unchanged (still at DEBUG) even though
the requested level string parses to ERROR. -/
theorem claim2_bug :
    SetLevel sampleState ("x") (-1) ("error") = SetLevelResult.ok sampleState
    ∧ getLevelFromStr ("error") = (ERROR, false)
    ∧ (lookupAssoc sampleState.loggerMap ("x")).map
        (fun l => l.writers.map (fun w => w.level)) = some [DEBUG]
    ∧ DEBUG ≠ ERROR := by
  decide

/-- C3, counterexample: at cached date bucket 141001 the Default formatter
renders `D1001 200102 a.go:9] hello\n`: the first numeric field is the
four-digit `dt % 10000` (month-day), not the six-digit YYMMDD the claim
states. -/
theorem claim3_counterexample :
    DefaultFormatter.Format 141001 200102 DEBUG ("hello") ("/tmp/a.go") 9 true
      = some ("D1001 200102 a.go:9] hello\n")
    ∧ ("D1001 200102 a.go:9] hello\n") ≠ ("D141001 200102 a.go:9] hello\n") := by
  decide

/-- C3, amended: every record of the Default formatter (with a resolvable
caller whose file has a directory part) has the shape
`<L><MMDD> <HHMMSS> <file>:<line>] <message>\n`, where the first numeric
field is the FOUR-digit `dt % 10000` zero-padded month-day of the cached
date, `<file>` is the last path segment of the caller's file, and `<L>` is
the one-letter code D/I/W/E/F for the severity, an unrecognized severity
being reported and coerced to I. -/
theorem claim3_amended (dt tm : Nat) (level : Int) (msg d b : String) (line : Int)
    (hne : b.data ≠ []) (hs : ∀ c ∈ b.data, c ≠ ('/')) :
    DefaultFormatter.Format dt tm level msg (d ++ ("/") ++ b) line true
      = some (String.singleton (getLevelStr level).1 ++ padZeros 4 (dt % 10000)
          ++ (" ") ++ padZeros 6 tm ++ (" ") ++ b ++ (":") ++ intToString line
          ++ ("] ") ++ msg ++ ("\n"))
    ∧ (padZeros 4 (dt % 10000)).length = 4
    ∧ getLevelStr DEBUG = (('D'), false) ∧ getLevelStr INFO = (('I'), false)
    ∧ getLevelStr WARN = (('W'), false) ∧ getLevelStr ERROR = (('E'), false)
    ∧ getLevelStr FATAL = (('F'), false) ∧ getLevelStr (-5) = (('I'), true) := by
  refine ⟨?_, ?_, by decide, by decide, by decide, by decide, by decide, by decide⟩
  · simp only [DefaultFormatter.Format, if_pos, shortFile_append d b hne hs,
      Option.map_some', lastDateTimeStr]
    congr 1
    simp [String.append_assoc]
  · have h4 : dt % 10000 < 10 ^ 4 := by
      have := Nat.mod_lt dt (show 0 < 10000 by norm_num)
      norm_num
      omega
    exact padZeros_length (uitoa_length_le h4 (by omega))

/-- C3, witness: the amended shape at a concrete date, time, level, caller
and message. -/
theorem claim3_witness :
    DefaultFormatter.Format 141001 200102 INFO ("hi") (("/tmp") ++ ("/") ++ ("a.go")) 9 true
      = some (String.singleton (getLevelStr INFO).1 ++ padZeros 4 (141001 % 10000)
          ++ (" ") ++ padZeros 6 200102 ++ (" ") ++ ("a.go") ++ (":") ++ intToString 9
          ++ ("] ") ++ ("hi") ++ ("\n")) :=
  (claim3_amended 141001 200102 INFO ("hi") ("/tmp") ("a.go") 9
    (by decide) (by decide)).1

/-- C4: for every logger whose cached aggregate threshold is the minimum
of its writers' thresholds, a `Write(level, msg)` call hands the formatted
record to exactly those writers `w` with `level >= w.level`, in order,
independent of the other writers; in particular a level below the
aggregate produces no device write at all. -/
theorem claim4_dispatch (log : Logger) (amb : Ambient) (level : Int) (msg b : String)
    (hmem : log.minLevel ∈ log.writers.map (fun w => w.level))
    (hle : ∀ w ∈ log.writers, log.minLevel ≤ w.level)
    (hb : applyFormat log.format amb level msg = some b) :
    Logger.Write log amb level msg
      = some ((log.writers.filter (fun w => decide (w.level ≤ level))).map
          (fun w => (w.device, b)))
    ∧ (level < log.minLevel → Logger.Write log amb level msg = some []) := by
  by_cases hlt : level < log.minLevel
  · have hfil : log.writers.filter (fun w => decide (w.level ≤ level)) = [] := by
      rw [List.filter_eq_nil_iff]
      intro w hwmem
      have h1 := hle w hwmem
      simp only [decide_eq_true_eq]
      omega
    constructor
    · simp only [Logger.Write, if_pos hlt, hfil, List.map_nil]
    · intro _
      simp only [Logger.Write, if_pos hlt]
  · constructor
    · simp only [Logger.Write, if_neg hlt, hb]
      rw [foldl_fanout]
      simp
    · intro hcon
      exact absurd hcon hlt

/-- C4, witness: the spec's concrete scenario, a console writer at DEBUG
plus a file writer at ERROR; an INFO record reaches the console only. -/
theorem claim4_witness :
    Logger.Write (NewLogger Fmt.defaultFmt
        [Writer.mk DEBUG Device.consoleDev, Writer.mk ERROR (Device.fileDev ("mylog") 0)])
      amb0 INFO ("m") = some [(Device.consoleDev, ("I1001 200102 a.go:9] m\n"))] := by
  have h := (claim4_dispatch (NewLogger Fmt.defaultFmt
      [Writer.mk DEBUG Device.consoleDev, Writer.mk ERROR (Device.fileDev ("mylog") 0)])
    amb0 INFO ("m") ("I1001 200102 a.go:9] m\n")
    (by decide) (by decide) (by decide)).1
  rw [h]
  decide

/-- C5: device construction for the tag `file_hour` is a Go panic: the tag
is documented and `createFileHourDevice` exists, but the `deviceMap`
registry holds only `file`, `stdout`, `console` and `nsq`, so `NewDevice`
calls a nil map entry. The four registered tags construct their devices. -/
theorem claim5_bug :
    NewDevice ("file_hour:mylog") = none
    ∧ lookupAssoc deviceMap ("file_hour") = none
    ∧ NewDevice ("file:mylog") = some (Except.ok (Device.fileDev ("mylog") 0))
    ∧ NewDevice ("console") = some (Except.ok Device.consoleDev)
    ∧ NewDevice ("stdout") = some (Except.ok Device.stdoutDev)
    ∧ NewDevice ("nsq:h:1:n:t") = some (Except.ok (Device.nsqDev ("h:1") ("1") ("n")))
    ∧ createFileHourDevice ("mylog") = Except.ok (Device.fileDev ("mylog") HourRorate) := by
  refine ⟨rfl, rfl, rfl, rfl, rfl, rfl, rfl⟩

/-- C6: the malformed 3-field descriptor `nsq:host:1234` (and an
empty-field one) exits the process at construction time as claimed, but a
well-formed 4-field descriptor `host:port:name:topic` is stored with
`name := port` and `topic := name`, so a write publishes
`<port>|<record>` under the descriptor's name field, not
`<name>|<record>` under its topic field. -/
theorem claim6_bug :
    NewDevice ("nsq:host:4150:myname:mytopic")
      = some (Except.ok (Device.nsqDev ("host:4150") ("4150") ("myname")))
    ∧ nsqWrite ("4150") ("myname") ("R") true = ((("myname"), ("4150|R")), false)
    ∧ ("4150") ≠ ("myname") ∧ ("myname") ≠ ("mytopic")
    ∧ NewDevice ("nsq:host:1234") = some (Except.error 1)
    ∧ NewDevice ("nsq:host: :n:t") = some (Except.error 1) := by
  refine ⟨rfl, rfl, by decide, by decide, rfl, rfl⟩

theorem fileWrite_fresh (pre dir p : String) (d tmv : Nat) :
    FileDevice.Write pre 0 dir d tmv true true true (FState.mk none 0) p
      = (FState.mk (some (fileName dir pre d)) d,
         [FEvent.openEv (fileName dir pre d) true,
          FEvent.writeEv (fileName dir pre d) p true]) := by
  simp only [FileDevice.Write, DayRorate, HourRorate]
  norm_num

theorem fileWrite_rotate_ok (pre dir p f : String) (dOld d tmv : Nat)
    (hne : dOld ≠ d) :
    FileDevice.Write pre 0 dir d tmv true true true (FState.mk (some f) dOld) p
      = (FState.mk (some (fileName dir pre d)) d,
         [FEvent.flushEv f, FEvent.closeEv f true,
          FEvent.openEv (fileName dir pre d) true,
          FEvent.writeEv (fileName dir pre d) p true]) := by
  simp only [FileDevice.Write, DayRorate, HourRorate]
  norm_num
  rw [if_neg hne]
  rfl

theorem fileWrite_rotate_fail (pre dir p f : String) (dOld d tmv : Nat)
    (hne : dOld ≠ d) :
    FileDevice.Write pre 0 dir d tmv false true true (FState.mk (some f) dOld) p
      = (FState.mk none dOld,
         [FEvent.flushEv f, FEvent.closeEv f true,
          FEvent.openEv (fileName dir pre d) false, FEvent.reportOpenErr]) := by
  simp only [FileDevice.Write, DayRorate, HourRorate]
  norm_num
  rw [if_neg hne]
  rfl

/-- C7: a fresh daily file device written at bucket D1 and then at a
different bucket D2 opens and writes the file named with D1, then flushes
and closes it before opening and writing the distinct file named with D2;
when the open of the D2 file fails instead, the write is dropped after the
flush and close of the D1 file (reported, no write event, no error to the
caller, the device left with no open file). -/
theorem claim7_rotation (pre dir p1 p2 : String) (d1 d2 tmv : Nat) (hne : d1 ≠ d2) :
    (FileDevice.Write pre 0 dir d1 tmv true true true (FState.mk none 0) p1).2
      = [FEvent.openEv (fileName dir pre d1) true,
         FEvent.writeEv (fileName dir pre d1) p1 true]
    ∧ (FileDevice.Write pre 0 dir d2 tmv true true true
        (FileDevice.Write pre 0 dir d1 tmv true true true (FState.mk none 0) p1).1 p2).2
      = [FEvent.flushEv (fileName dir pre d1),
         FEvent.closeEv (fileName dir pre d1) true,
         FEvent.openEv (fileName dir pre d2) true,
         FEvent.writeEv (fileName dir pre d2) p2 true]
    ∧ fileName dir pre d1 ≠ fileName dir pre d2
    ∧ (FileDevice.Write pre 0 dir d2 tmv false true true
        (FileDevice.Write pre 0 dir d1 tmv true true true (FState.mk none 0) p1).1 p2)
      = (FState.mk none d1,
         [FEvent.flushEv (fileName dir pre d1),
          FEvent.closeEv (fileName dir pre d1) true,
          FEvent.openEv (fileName dir pre d2) false,
          FEvent.reportOpenErr]) := by
  have h1 := fileWrite_fresh pre dir p1 d1 tmv
  refine ⟨by rw [h1], ?_, fileName_ne hne, ?_⟩
  · rw [h1]
    rw [fileWrite_rotate_ok pre dir p2 (fileName dir pre d1) d1 d2 tmv hne]
  · rw [h1]
    rw [fileWrite_rotate_fail pre dir p2 (fileName dir pre d1) d1 d2 tmv hne]

/-- C7, witness: the rotation theorem at concrete buckets 141001 and
141002; in particular the two filenames differ. -/
theorem claim7_witness :
    fileName ("/app") ("mylog") 141001 ≠ fileName ("/app") ("mylog") 141002 :=
  (claim7_rotation ("mylog") ("/app") ("a") ("b") 141001 141002 0 (by decide)).2.2.1

/-- C8, counterexample: `NewLogger` over one writer at threshold FATAL
caches aggregate DISABLE, not the writers' minimum FATAL: the recomputation
starts from DISABLE and only ever lowers it. -/
theorem claim8_counterexample :
    ((NewLogger Fmt.defaultFmt [Writer.mk FATAL Device.consoleDev]).writers.map
        (fun w => w.level)) = [FATAL]
    ∧ (NewLogger Fmt.defaultFmt [Writer.mk FATAL Device.consoleDev]).minLevel = DISABLE
    ∧ DISABLE ≠ FATAL := by
  decide

/-- C8, amended: after `NewLogger`, after every completed `Init`
configuration entry, and after every successful `SetLevel`, the touched
logger's cached aggregate equals the minimum over DISABLE and its writers'
thresholds (so DISABLE for an empty writer set, and never above DISABLE);
the whole-registry invariant is preserved. -/
theorem claim8_amended :
    (∀ (f : Fmt) (ws : List Writer), (NewLogger f ws).minLevel = aggregate ws)
    ∧ (∀ (s : State) (hd : Bool) (e : LoggerDefine) (s' : State) (hd' : Bool),
        processEntry s hd e = some (s', hd') → InvState s → InvState s')
    ∧ (∀ (s : State) (name : String) (index : Int) (level : String) (s' : State),
        SetLevel s name index level = SetLevelResult.ok s' → InvState s → InvState s') := by
  refine ⟨newLogger_aggregate, ?_, ?_⟩
  · intro s hd e s' hd' h hs
    simp only [processEntry] at h
    rcases hw : NewWriter (getLevelFromStr e.level).1 (goToLower e.writer) with _ | w
    · simp only [hw] at h
      exact Option.noConfusion h
    · simp only [hw] at h
      have hlog : ∀ o : Option Logger, InvLogger (match o with
          | none => NewLogger Fmt.defaultFmt [w]
          | some l => Logger.UpdateLevel { l with writers := l.writers ++ [w] }) := by
        intro o
        cases o with
        | none => exact newLogger_aggregate _ _
        | some l => exact updateLevel_aggregate _
      by_cases hn : goToLower e.name = "default"
      · rw [if_pos hn] at h
        have hinj := Option.some.inj h
        have h1 := congrArg Prod.fst hinj
        simp only at h1
        rw [← h1]
        exact ⟨hlog _, hs.2⟩
      · rw [if_neg hn] at h
        have hinj := Option.some.inj h
        have h1 := congrArg Prod.fst hinj
        simp only at h1
        rw [← h1]
        refine ⟨hs.1, ?_⟩
        intro q hq
        rcases mem_mapSet hq with h2 | h2
        · rw [h2]; exact hlog _
        · exact hs.2 q h2
  · intro s name index level s' h hs
    simp only [SetLevel] at h
    rcases hres : resolveLogger s name with _ | log
    · simp only [hres] at h
      exact SetLevelResult.noConfusion h
    · simp only [hres] at h
      by_cases hb1 : (log.writers.length : Int) ≤ index
      · rw [if_pos hb1] at h; exact SetLevelResult.noConfusion h
      · rw [if_neg hb1] at h
        by_cases hb2 : index = -1
        · rw [if_pos hb2] at h
          have hseq := SetLevelResult.ok.inj h
          rw [← hseq]
          exact storeLogger_inv (updateLevel_aggregate log) hs
        · rw [if_neg hb2] at h
          by_cases hb3 : index < 0
          · rw [if_pos hb3] at h; exact SetLevelResult.noConfusion h
          · rw [if_neg hb3] at h
            rcases hget : log.writers.get? index.toNat with _ | w
            · simp only [hget] at h
              exact SetLevelResult.noConfusion h
            · simp only [hget] at h
              have hseq := SetLevelResult.ok.inj h
              rw [← hseq]
              exact storeLogger_inv (updateLevel_aggregate _) hs

/-- The registry produced by a successful indexed `SetLevel` on
`sampleState`. -/
def sampleStateAfter : State :=
  match SetLevel sampleState ("x") 0 ("error") with
  | SetLevelResult.ok t => t
  | _ => sampleState

/-- C8, witness: the invariant-preservation conjunct applied to a concrete
successful `SetLevel`. -/
theorem claim8_witness : InvState sampleStateAfter :=
  claim8_amended.2.2 sampleState ("x") 0 ("error") sampleStateAfter
    (by decide) (by decide)

/-- C9: `SetLevel` returns the NameNotFound error for a name other than
`default` that is absent from the registry, and the IndexOutOfBound error
when the index is at least the resolved logger's writer count; both error
paths return before any mutation, with the registry as it was. -/
theorem claim9_errors :
    (∀ (s : State) (name : String) (index : Int) (level : String),
      name ≠ ("default") → lookupAssoc s.loggerMap name = none →
      SetLevel s name index level = SetLevelResult.err GoErr.nameNotFound s)
    ∧ (∀ (s : State) (name : String) (index : Int) (level : String) (log : Logger),
      resolveLogger s name = some log → (log.writers.length : Int) ≤ index →
      SetLevel s name index level = SetLevelResult.err GoErr.indexOutOfBound s) := by
  constructor
  · intro s name index level hname hlook
    have hres : resolveLogger s name = none := by
      rw [resolveLogger, if_neg hname]
      exact hlook
    simp only [SetLevel, hres]
  · intro s name index level log hres hidx
    simp only [SetLevel, hres]
    rw [if_pos hidx]

/-- C9, witness: both error outcomes on a concrete registry, the state
coming back unchanged. -/
theorem claim9_witness :
    SetLevel sampleState ("nope") 0 ("d")
      = SetLevelResult.err GoErr.nameNotFound sampleState
    ∧ SetLevel sampleState ("x") 7 ("d")
      = SetLevelResult.err GoErr.indexOutOfBound sampleState :=
  ⟨claim9_errors.1 sampleState ("nope") 0 ("d") (by decide) (by decide),
   claim9_errors.2 sampleState ("x") 7 ("d") sampleLogger (by decide) (by decide)⟩

/-- C10: for a resolvable logger, an index at or below -2 passes the
`index >= len(writers)` bounds check (which never rejects a negative
index), is not the ALL case, and reaches the slice access
`writers[index]`, a Go index-out-of-range runtime panic rather than the
IndexOutOfBound error. -/
theorem claim10_crash (s : State) (name : String) (log : Logger) (index : Int)
    (level : String) (hres : resolveLogger s name = some log) (hidx : index ≤ -2) :
    SetLevel s name index level = SetLevelResult.crash := by
  have hlen : ¬ (log.writers.length : Int) ≤ index := by
    have h0 : (0 : Int) ≤ (log.writers.length : Int) := Int.ofNat_nonneg _
    omega
  simp only [SetLevel, hres]
  rw [if_neg hlen, if_neg (show ¬ index = -1 by omega),
    if_pos (show index < 0 by omega)]

/-- C10, witness: `SetLevel` on the registered name `x` with index -2
panics. -/
theorem claim10_witness :
    SetLevel sampleState ("x") (-2) ("d") = SetLevelResult.crash :=
  claim10_crash sampleState ("x") sampleLogger (-2) ("d") (by decide) (by decide)

end GoLog
